import Mathlib

/-!
# Loki sink of the Kubernetes event exporter

A shallow embedding of `pkg/sinks/loki.go`: the sink configuration, the
request-construction logic of `Loki.Send`, `convertStreamTemplate` and
`generateTimestamp`, followed by theorems about them.

Collaborators that live outside the embedded file (the template renderer
`GetString`, the layout serializer `serializeEventWithLayout`, `json.Marshal`,
`http.NewRequest`, the HTTP transport, the wall clock, the order in which Go
ranges over a map) are fields of an environment `Env`, so every theorem holds
for every behaviour of theirs.
-/

namespace Loki

/-! ## Go values -/

/-- A Go `error` value, identified by the text its `Error()` method returns. -/
structure GoError where
  text : String
deriving DecidableEq, Repr

/-- A Go `map[string]α`: finitely many entries with pairwise distinct keys.
The order of `entries` carries no meaning; a `range` over the map visits them
in the order chosen by a `RangeOrder`. -/
structure GoMap (α : Type) where
  entries : List (String × α)
  nodup : (entries.map Prod.fst).Nodup

/-- The result of `make(map[string]α)`. -/
def GoMap.empty {α : Type} : GoMap α := ⟨[], List.nodup_nil⟩

/-- The two-valued read `v, ok := m[k]`. -/
def GoMap.lookup {α : Type} (m : GoMap α) (k : String) : Option α :=
  (m.entries.find? (fun p => p.1 == k)).map Prod.snd

/-- The one-valued read `m[k]`, which gives the zero value for an absent key. -/
def GoMap.index (m : GoMap String) (k : String) : String :=
  (m.lookup k).getD ""

/-- The statement `delete(m, k)`. -/
def GoMap.delete {α : Type} (m : GoMap α) (k : String) : GoMap α :=
  ⟨m.entries.filter (fun p => p.1 != k),
    ((List.filter_sublist m.entries).map Prod.fst).nodup m.nodup⟩

/-- The assignment `m[k] = v`: any earlier entry of `k` is replaced. -/
def GoMap.set {α : Type} (m : GoMap α) (k : String) (v : α) : GoMap α :=
  ⟨(k, v) :: m.entries.filter (fun p => p.1 != k),
    by
      rw [List.map_cons, List.nodup_cons]
      refine ⟨?_, ((List.filter_sublist m.entries).map Prod.fst).nodup m.nodup⟩
      intro hk
      obtain ⟨p, hp, hpk⟩ := List.mem_map.1 hk
      have hne := (List.mem_filter.1 hp).2
      simp [hpk] at hne⟩

/-- The order in which one `range` statement visits the entries of a map. Go
leaves it unspecified, so it is an arbitrary rearrangement of the entries. -/
structure RangeOrder where
  order : List (String × String) → List (String × String)
  perm : ∀ l, (order l).Perm l

/-- The `range` order that visits the entries as they are listed. -/
def RangeOrder.listed : RangeOrder := ⟨fun l => l, fun l => List.Perm.refl l⟩

/-! ## Data model -/

/-- A value of a layout entry (`interface{}` as decoded from YAML). -/
inductive LayoutValue where
  | str (s : String)
  | scalar (yaml : String)
  | seq (xs : List LayoutValue)
  | dict (kvs : List (String × LayoutValue))

/-- The fields of `kube.EnhancedEvent.InvolvedObject` read by the sink. -/
structure InvolvedObject where
  Kind : String
  Name : String
  Namespace : String
deriving DecidableEq, Repr

/-- The part of `kube.EnhancedEvent` the sink and its tests refer to. -/
structure EnhancedEvent where
  Namespace : String
  Reason : String
  Type_ : String
  Message : String
  InvolvedObject : InvolvedObject
deriving DecidableEq, Repr

/-- Type `promtailStream`. -/
structure promtailStream where
  Stream : GoMap String
  Values : List (List String)

/-- Type `LokiMsg`. -/
structure LokiMsg where
  Streams : List promtailStream

/-- Type `LokiConfig` (without the TLS settings, which `Send` does not read).
A `none` map is Go's nil map. -/
structure LokiConfig where
  Layout : Option (GoMap LayoutValue)
  StreamLabels : Option (GoMap String)
  URL : String
  Headers : Option (GoMap String)
  IgnoreNamespaces : List String

/-- An `http.Header`: canonical key to the values added under it, in order. -/
abbrev Header := GoMap (List String)

/-- The `*http.Request` built by `Send`. `payload` is the message whose JSON
encoding is `body`. -/
structure Request where
  method : String
  url : String
  header : Header
  payload : LokiMsg
  body : String

/-- The `*http.Response` as `Send` reads it: the status code and the outcome
of `io.ReadAll(resp.Body)`. -/
structure Response where
  StatusCode : Int
  Body : Except GoError String

/-- The collaborators of one `Send` call. -/
structure Env where
  /-- The template renderer `GetString(ev, text)`. -/
  GetString : EnhancedEvent → String → Except GoError String
  /-- The layout serializer. -/
  serializeEventWithLayout : GoMap LayoutValue → EnhancedEvent → Except GoError String
  /-- The reading `time.Now().Unix()` of the wall clock (an `int64`). -/
  unixNow : Int
  /-- Go's `json.Marshal` on a `LokiMsg`. -/
  jsonMarshal : LokiMsg → Except GoError String
  /-- Go's `http.NewRequest(method, url, body)`: `none` when it succeeds. -/
  newRequest : String → String → String → Option GoError
  /-- Go's `textproto.CanonicalMIMEHeaderKey`. -/
  canonicalKey : String → String
  /-- What `client.Do(req)` gives. -/
  clientDo : Request → Except GoError Response
  /-- The order of the `range` over the stream labels. -/
  labelOrder : RangeOrder
  /-- The order of the `range` over the configured headers. -/
  headerOrder : RangeOrder

/-! ## Header operations of `net/http` -/

/-- Method `Header.Set`. -/
def Header.Set (canon : String → String) (h : Header) (k v : String) : Header :=
  GoMap.set h (canon k) [v]

/-- Method `Header.Add`. -/
def Header.Add (canon : String → String) (h : Header) (k v : String) : Header :=
  GoMap.set h (canon k) ((GoMap.lookup h (canon k)).getD [] ++ [v])

/-- Method `Header.Values`. -/
def Header.Values (canon : String → String) (h : Header) (k : String) : List String :=
  (GoMap.lookup h (canon k)).getD []

/-- Method `Header.Get`: the first value under the key, or the empty string. -/
def Header.Get (canon : String → String) (h : Header) (k : String) : String :=
  (Header.Values canon h k).headD ""

/-! ## The sink -/

/-- Go's `strconv.FormatInt(i, 10)`. -/
def FormatInt10 (i : Int) : String := toString i

/-- Function `generateTimestamp`, given the reading `time.Now().Unix()`. -/
def generateTimestamp (unixNow : Int) : String :=
  FormatInt10 unixNow ++ "000000000"

/-- The pattern `^\d+000000000$`: the text without its last nine characters
is a non-empty run of decimal digits, and the last nine characters are zeros. -/
def matchesTimestampPattern (t : String) : Bool :=
  let cs := t.data
  let digits := cs.take (cs.length - 9)
  !digits.isEmpty && digits.all Char.isDigit && (cs.drop (cs.length - 9) == List.replicate 9 '0')

/-- The loop of `convertStreamTemplate` over the entries still to visit, with
the `result` map built so far. -/
def convertStreamLoop (GetString : EnhancedEvent → String → Except GoError String)
    (ev : EnhancedEvent) :
    List (String × String) → GoMap String → Except GoError (GoMap String)
  | [], result => .ok result
  | (key, value) :: rest, result =>
    match GetString ev value with
    | .error err => .error err
    | .ok rendered => convertStreamLoop GetString ev rest (result.set key rendered)

/-- Function `convertStreamTemplate`; `ord` is the order of its `range`. -/
def convertStreamTemplate (GetString : EnhancedEvent → String → Except GoError String)
    (ord : RangeOrder) (layout : GoMap String) (ev : EnhancedEvent) :
    Except GoError (GoMap String) :=
  convertStreamLoop GetString ev (ord.order layout.entries) GoMap.empty

/-- The loop of `Send` over the configured headers (lines 126-135). -/
def addHeaders (env : Env) (ev : EnhancedEvent) : List (String × String) → Header → Header
  | [], h => h
  | (k, v) :: rest, h =>
    match env.GetString ev v with
    | .error _ => addHeaders env ev rest (Header.Add env.canonicalKey h k v)
    | .ok realValue => addHeaders env ev rest (Header.Add env.canonicalKey h k realValue)

/-- Lines 70-84 of `Send`: nil maps are made, then the kind of the involved
object decides between the `host` label and the `name` layout entry. -/
def relabel (cfg : LokiConfig) (ev : EnhancedEvent) : LokiConfig :=
  let layout := cfg.Layout.getD GoMap.empty
  let streamLabels := cfg.StreamLabels.getD GoMap.empty
  let headers := cfg.Headers.getD GoMap.empty
  if ev.InvolvedObject.Kind = "Node" then
    { cfg with
      Layout := some (layout.delete "name")
      StreamLabels := some (streamLabels.set "host" ev.InvolvedObject.Name)
      Headers := some headers }
  else
    { cfg with
      Layout := some (layout.set "name" (.str "\x7b\x7b .InvolvedObject.Name \x7d\x7d"))
      StreamLabels := some streamLabels
      Headers := some headers }

/-- Lines 98-101 of `Send`: the `namespace` and `index` labels of an event
with a namespace. -/
def addNamespaceLabels (streamLabels : GoMap String) (ev : EnhancedEvent) : GoMap String :=
  if ev.InvolvedObject.Namespace ≠ "" then
    let withNamespace := streamLabels.set "namespace" ev.InvolvedObject.Namespace
    withNamespace.set "index" (withNamespace.index "cluster" ++ "-" ++ ev.InvolvedObject.Namespace)
  else
    streamLabels

/-- Lines 144-146 of `Send`. -/
def deleteEventLabels (streamLabels : GoMap String) : GoMap String :=
  ((streamLabels.delete "namespace").delete "index").delete "host"

/-- What one call of `Send` does: the returned error (`none` for nil), the
configuration it leaves behind, the layout it handed to the serializer, and
the requests it handed to `client.Do`. -/
structure SendResult where
  err : Option GoError
  cfg : LokiConfig
  layoutUsed : GoMap LayoutValue
  requests : List Request

/-- Method `Loki.Send`. -/
def Send (env : Env) (cfg : LokiConfig) (ev : EnhancedEvent) : SendResult :=
  let cfg1 := relabel cfg ev
  let layout := cfg1.Layout.getD GoMap.empty
  match env.serializeEventWithLayout layout ev with
  | .error err => ⟨some err, cfg1, layout, []⟩
  | .ok eventBody =>
    if cfg1.IgnoreNamespaces.any (fun namespace_ => namespace_ == ev.InvolvedObject.Namespace) then
      ⟨none, cfg1, layout, []⟩
    else
      let labels := addNamespaceLabels (cfg1.StreamLabels.getD GoMap.empty) ev
      let cfg2 := { cfg1 with StreamLabels := some labels }
      match convertStreamTemplate env.GetString env.labelOrder labels ev with
      | .error err => ⟨some err, cfg2, layout, []⟩
      | .ok streamLabels =>
        let timestamp := generateTimestamp env.unixNow
        let a : LokiMsg := ⟨[⟨streamLabels, [[timestamp, eventBody]]⟩]⟩
        match env.jsonMarshal a with
        | .error err => ⟨some err, cfg2, layout, []⟩
        | .ok reqBody =>
          match env.newRequest "POST" cfg2.URL reqBody with
          | some err => ⟨some err, cfg2, layout, []⟩
          | none =>
            let header := Header.Set env.canonicalKey GoMap.empty "Content-Type" "application/json"
            let header := addHeaders env ev
              (env.headerOrder.order (cfg2.Headers.getD GoMap.empty).entries) header
            let req : Request := ⟨"POST", cfg2.URL, header, a, reqBody⟩
            match env.clientDo req with
            | .error err => ⟨some err, cfg2, layout, [req]⟩
            | .ok resp =>
              let cfg3 := { cfg2 with StreamLabels := some (deleteEventLabels labels) }
              match resp.Body with
              | .error err => ⟨some err, cfg3, layout, [req]⟩
              | .ok body =>
                if ¬ (resp.StatusCode ≥ 200 ∧ resp.StatusCode < 300) then
                  ⟨some ⟨"not successfull (2xx) response: " ++ body⟩, cfg3, layout, [req]⟩
                else
                  ⟨none, cfg3, layout, [req]⟩

/-! ## Notions used in the statements -/

/-- The stream labels `Send` hands to `convertStreamTemplate` (line 103). -/
def labelsToConvert (cfg : LokiConfig) (ev : EnhancedEvent) : GoMap String :=
  addNamespaceLabels ((relabel cfg ev).StreamLabels.getD GoMap.empty) ev

/-- The header of the request `Send` builds (lines 124-135). -/
def requestHeader (env : Env) (cfg : LokiConfig) (ev : EnhancedEvent) : Header :=
  addHeaders env ev (env.headerOrder.order (cfg.Headers.getD GoMap.empty).entries)
    (Header.Set env.canonicalKey GoMap.empty "Content-Type" "application/json")

/-- Lines 139-159 of `Send` as a function of what `client.Do` gave. -/
def exchangeOutcome : Except GoError Response → Option GoError
  | .error err => some err
  | .ok resp =>
    match resp.Body with
    | .error err => some err
    | .ok body =>
      if ¬ (resp.StatusCode ≥ 200 ∧ resp.StatusCode < 300) then
        some ⟨"not successfull (2xx) response: " ++ body⟩
      else none

/-- Control of `Send` reaches line 124 with the request `req` under
construction: the body was serialized, the namespace is not ignored, the
labels were rendered, the message was marshalled and `http.NewRequest`
succeeded. -/
def RequestConstructed (env : Env) (cfg : LokiConfig) (ev : EnhancedEvent)
    (eventBody : String) (streamLabels : GoMap String) (reqBody : String) : Prop :=
  env.serializeEventWithLayout ((relabel cfg ev).Layout.getD GoMap.empty) ev = .ok eventBody ∧
  cfg.IgnoreNamespaces.any (fun namespace_ => namespace_ == ev.InvolvedObject.Namespace) = false ∧
  convertStreamTemplate env.GetString env.labelOrder (labelsToConvert cfg ev) ev
    = .ok streamLabels ∧
  env.jsonMarshal ⟨[⟨streamLabels, [[generateTimestamp env.unixNow, eventBody]]⟩]⟩
    = .ok reqBody ∧
  env.newRequest "POST" cfg.URL reqBody = none

/-- The request of a call that reached line 124. -/
def builtRequest (env : Env) (cfg : LokiConfig) (ev : EnhancedEvent)
    (eventBody : String) (streamLabels : GoMap String) (reqBody : String) : Request :=
  ⟨"POST", cfg.URL, requestHeader env cfg ev,
    ⟨[⟨streamLabels, [[generateTimestamp env.unixNow, eventBody]]⟩]⟩, reqBody⟩

/-- The value `Send` adds for a configured header value: its rendering, or
the value itself when it cannot be rendered. -/
def headerValue (env : Env) (ev : EnhancedEvent) (v : String) : String :=
  match env.GetString ev v with
  | .error _ => v
  | .ok realValue => realValue

/-- The template `Send` stores under the layout key `name`. -/
def nameTemplate : LayoutValue := .str "\x7b\x7b .InvolvedObject.Name \x7d\x7d"

/-- The number a run of decimal digits denotes. -/
def decimalValue (cs : List Char) : Nat :=
  cs.foldl (fun acc c => 10 * acc + (c.toNat - 48)) 0

/-! ## Sample collaborators -/

/-- The text left after the given prefix, when the text starts with it. -/
def dropPrefix : List Char → List Char → Option (List Char)
  | [], cs => some cs
  | _ :: _, [] => none
  | p :: ps, c :: cs => if p = c then dropPrefix ps cs else none

/-- The value of a field expression at the start of the text, with the text
after it. -/
def fieldAction (ev : EnhancedEvent) (cs : List Char) : Option (String × List Char) :=
  match dropPrefix "\x7b\x7b .InvolvedObject.Namespace \x7d\x7d".data cs with
  | some rest => some (ev.InvolvedObject.Namespace, rest)
  | none =>
    match dropPrefix "\x7b\x7b .InvolvedObject.Name \x7d\x7d".data cs with
    | some rest => some (ev.InvolvedObject.Name, rest)
    | none =>
      match dropPrefix "\x7b\x7b .Reason \x7d\x7d".data cs with
      | some rest => some (ev.Reason, rest)
      | none => none

/-- The rendering of a template text: field expressions are replaced by their
values, other text is copied, any other action is `none`. The first argument
bounds the number of steps. -/
def renderChars (ev : EnhancedEvent) : Nat → List Char → Option (List Char)
  | 0, _ => some []
  | _ + 1, [] => some []
  | fuel + 1, c :: cs =>
    match fieldAction ev (c :: cs) with
    | some (value, rest) => (renderChars ev fuel rest).map (fun out => value.data ++ out)
    | none =>
      match dropPrefix "\x7b\x7b".data (c :: cs) with
      | some _ => none
      | none => (renderChars ev fuel cs).map (fun out => c :: out)

/-- Modelled from the spec: the template renderer `GetString` (its source is
not part of the embedded file), which "resolves a template string against an
event, returning a plain string or a rendering error", for `{{ .Field }}`
expressions. This sample resolves the three field expressions used below
wherever they occur in the text, copies the text around them, and reports any
other template action as a rendering error. -/
def sampleGetString (ev : EnhancedEvent) (text : String) : Except GoError String :=
  match renderChars ev (text.length + 1) text.data with
  | some out => .ok (String.mk out)
  | none => .error ⟨"template: cannot render " ++ text⟩

/-- The first rendering error among the string entries of a layout. -/
def firstLayoutError (ev : EnhancedEvent) : List (String × LayoutValue) → Option GoError
  | [] => none
  | (_, .str s) :: rest =>
    match sampleGetString ev s with
    | .error err => some err
    | .ok _ => firstLayoutError ev rest
  | _ :: rest => firstLayoutError ev rest

/-- Modelled from the spec: the layout serializer `serializeEventWithLayout`
(its source is not part of the embedded file), which "applies a field layout
to an event, returning a JSON document" or an error. This sample fails when a
string entry of the layout fails to render and otherwise returns a fixed
document. -/
def sampleSerialize (layout : GoMap LayoutValue) (ev : EnhancedEvent) : Except GoError String :=
  match firstLayoutError ev layout.entries with
  | some err => .error err
  | none => .ok "\x7b\x7d"

/-- A backend that answers every request with the given status and body. -/
def backend (status : Int) (body : String) : Request → Except GoError Response :=
  fun _ => .ok ⟨status, .ok body⟩

/-- A backend that cannot be reached. -/
def unreachable : Request → Except GoError Response :=
  fun _ => .error ⟨"dial tcp: connection refused"⟩

/-- An environment with the sample collaborators and the given transport. -/
def sampleEnv (clientDo : Request → Except GoError Response) : Env where
  GetString := sampleGetString
  serializeEventWithLayout := sampleSerialize
  unixNow := 1700000000
  jsonMarshal := fun _ => .ok "payload"
  newRequest := fun _ _ _ => none
  canonicalKey := fun k => k
  clientDo := clientDo
  labelOrder := RangeOrder.listed
  headerOrder := RangeOrder.listed

/-- A map literal whose keys are distinct. -/
def GoMap.ofList {α : Type} (l : List (String × α)) (h : (l.map Prod.fst).Nodup) : GoMap α :=
  ⟨l, h⟩

/-- The configuration of `TestLoki_Send_StreamLabelsTemplated`. -/
def testConfig : LokiConfig where
  Layout := none
  StreamLabels := some (GoMap.ofList
    [("app", "kube-events"), ("object_namespace", "\x7b\x7b .InvolvedObject.Namespace \x7d\x7d")]
    (by decide))
  URL := "http://loki/push"
  Headers := none
  IgnoreNamespaces := []

/-- The event of `TestLoki_Send_StreamLabelsTemplated`. -/
def testEvent : EnhancedEvent where
  Namespace := "default"
  Reason := "my reason"
  Type_ := "Warning"
  Message := "Successfully pulled image \"nginx:latest\""
  InvolvedObject := ⟨"Pod", "nginx-server-123abc-456def", "prod"⟩

/-! ## Sample inputs -/

/-- A configuration that ignores `kube-system` and whose layout has an entry
that cannot be rendered. -/
def brokenLayoutConfig : LokiConfig where
  Layout := some (GoMap.ofList
    [("detail", .str "\x7b\x7b .NoSuchField \x7d\x7d")] (by decide))
  StreamLabels := some (GoMap.ofList
    [("app", "\x7b\x7b .NoSuchLabel \x7d\x7d")] (by decide))
  URL := "http://loki/push"
  Headers := none
  IgnoreNamespaces := ["kube-system"]

/-- A configuration that ignores `kube-system`. -/
def ignoringConfig : LokiConfig where
  Layout := none
  StreamLabels := some (GoMap.ofList [("app", "kube-events")] (by decide))
  URL := "http://loki/push"
  Headers := none
  IgnoreNamespaces := ["kube-system"]

/-- An event about a pod of the namespace `kube-system`. -/
def systemEvent : EnhancedEvent where
  Namespace := "kube-system"
  Reason := "Pulled"
  Type_ := "Normal"
  Message := "image pulled"
  InvolvedObject := ⟨"Pod", "coredns-0", "kube-system"⟩

/-- A configuration with a stream label that cannot be rendered. -/
def brokenLabelConfig : LokiConfig where
  Layout := none
  StreamLabels := some (GoMap.ofList
    [("app", "\x7b\x7b .NoSuchLabel \x7d\x7d")] (by decide))
  URL := "http://loki/push"
  Headers := none
  IgnoreNamespaces := ["kube-system"]

/-- An event whose involved-object namespace reads as a field expression. -/
def templatedNamespaceEvent : EnhancedEvent where
  Namespace := "default"
  Reason := "Pulled"
  Type_ := "Normal"
  Message := "image pulled"
  InvolvedObject := ⟨"Pod", "web-0", "\x7b\x7b .Reason \x7d\x7d"⟩

/-- An event about a node whose name reads as a field expression. -/
def templatedNodeEvent : EnhancedEvent where
  Namespace := "default"
  Reason := "NodeReady"
  Type_ := "Normal"
  Message := "node is ready"
  InvolvedObject := ⟨"Node", "\x7b\x7b .Reason \x7d\x7d", ""⟩

/-- An event about a node. -/
def nodeEvent : EnhancedEvent where
  Namespace := "default"
  Reason := "NodeReady"
  Type_ := "Normal"
  Message := "node is ready"
  InvolvedObject := ⟨"Node", "node-1", ""⟩

/-- A configuration whose layout has its own `name` entry. -/
def namedLayoutConfig : LokiConfig where
  Layout := some (GoMap.ofList
    [("name", .str "fixed-name"), ("reason", .str "\x7b\x7b .Reason \x7d\x7d")] (by decide))
  StreamLabels := some (GoMap.ofList [("app", "kube-events")] (by decide))
  URL := "http://loki/push"
  Headers := none
  IgnoreNamespaces := []

/-- A configuration with a header that renders and a header that does not. -/
def headerConfig : LokiConfig where
  Layout := none
  StreamLabels := some (GoMap.ofList [("app", "kube-events")] (by decide))
  URL := "http://loki/push"
  Headers := some (GoMap.ofList
    [("X-Scope-OrgID", "\x7b\x7b .InvolvedObject.Namespace \x7d\x7d"),
     ("X-Source", "\x7b\x7b .NoSuchField \x7d\x7d")] (by decide))
  IgnoreNamespaces := []

/-! ## Facts about Go maps -/

theorem GoMap.find_filter_ne {α : Type} (l : List (String × α)) (k k2 : String) :
    (l.filter (fun p => p.1 != k)).find? (fun p => p.1 == k2) =
      if k2 = k then none else l.find? (fun p => p.1 == k2) := by
  induction l with
  | nil => simp
  | cons p rest ih =>
    by_cases hp : p.1 = k
    · by_cases hk : k2 = k
      · simp [List.filter_cons, hp, hk, ih]
      · have hne : ¬ k = k2 := fun h => hk h.symm
        simp [List.filter_cons, hp, hk, ih, List.find?_cons, hne]
    · by_cases hk : k2 = k
      · subst hk
        simp [List.filter_cons, hp, List.find?_cons, ih]
      · by_cases h2 : p.1 = k2
        · simp [List.filter_cons, hp, hk, List.find?_cons, h2]
        · simp [List.filter_cons, hp, hk, List.find?_cons, h2, ih]

theorem GoMap.lookup_set {α : Type} (m : GoMap α) (k : String) (v : α) (k2 : String) :
    (m.set k v).lookup k2 = if k2 = k then some v else m.lookup k2 := by
  unfold GoMap.lookup GoMap.set
  by_cases hk : k2 = k
  · subst hk
    simp [List.find?_cons]
  · have hne : ((k, v).1 == k2) = false := by
      simpa using fun h => hk h.symm
    rw [if_neg hk, List.find?_cons, hne, GoMap.find_filter_ne, if_neg hk]

theorem GoMap.lookup_delete {α : Type} (m : GoMap α) (k k2 : String) :
    (m.delete k).lookup k2 = if k2 = k then none else m.lookup k2 := by
  unfold GoMap.lookup GoMap.delete
  rw [GoMap.find_filter_ne]
  by_cases hk : k2 = k
  · simp [hk]
  · simp [hk]

theorem GoMap.find_of_mem {α : Type} (l : List (String × α)) (h : (l.map Prod.fst).Nodup) (k : String) (v : α)
    (hm : (k, v) ∈ l) : l.find? (fun p => p.1 == k) = some (k, v) := by
  induction l with
  | nil => simp at hm
  | cons p rest ih =>
    rw [List.map_cons, List.nodup_cons] at h
    rcases List.mem_cons.1 hm with heq | hrest
    · subst heq
      simp [List.find?_cons]
    · have hne : ¬ p.1 = k := by
        intro hp
        apply h.1
        rw [hp]
        exact List.mem_map.2 ⟨(k, v), hrest, rfl⟩
      simp [List.find?_cons, hne, ih h.2 hrest]

theorem GoMap.mem_of_find {α : Type} (l : List (String × α)) (k : String) (p : String × α)
    (h : l.find? (fun q => q.1 == k) = some p) : p ∈ l ∧ p.1 = k := by
  have h1 := List.mem_of_find?_eq_some h
  have h2 := List.find?_some h
  exact ⟨h1, by simpa using h2⟩

/-- A key reads as `v` exactly when `(k, v)` is an entry of the map. -/
theorem GoMap.lookup_eq_some_iff {α : Type} (m : GoMap α) (k : String) (v : α) :
    m.lookup k = some v ↔ (k, v) ∈ m.entries := by
  unfold GoMap.lookup
  constructor
  · intro h
    cases hf : m.entries.find? (fun p => p.1 == k) with
    | none => simp [hf] at h
    | some p =>
      rw [hf] at h
      obtain ⟨hmem, hkey⟩ := GoMap.mem_of_find _ _ _ hf
      have hv : p.2 = v := by simpa using h
      have : p = (k, v) := Prod.ext hkey hv
      rw [← this]
      exact hmem
  · intro h
    rw [GoMap.find_of_mem _ m.nodup k v h]
    rfl

theorem GoMap.index_set_ne (m : GoMap String) (k k2 v : String) (h : k2 ≠ k) :
    (m.set k v).index k2 = m.index k2 := by
  unfold GoMap.index
  rw [GoMap.lookup_set, if_neg h]

/-! ## Facts about `convertStreamTemplate` -/

/-- An error of the loop is the rendering error of an entry it visited. -/
theorem convertStreamLoop_error
    (G : EnhancedEvent → String → Except GoError String) (ev : EnhancedEvent)
    (l : List (String × String)) (acc : GoMap String) (e : GoError)
    (h : convertStreamLoop G ev l acc = .error e) :
    ∃ p ∈ l, G ev p.2 = .error e := by
  induction l generalizing acc with
  | nil => simp [convertStreamLoop] at h
  | cons p rest ih =>
    obtain ⟨key, value⟩ := p
    cases hg : G ev value with
    | error err =>
      simp only [convertStreamLoop, hg] at h
      have : err = e := by simpa using h
      exact ⟨(key, value), List.mem_cons_self _ _, by rw [hg, this]⟩
    | ok rendered =>
      simp only [convertStreamLoop, hg] at h
      obtain ⟨q, hq, hqe⟩ := ih _ h
      exact ⟨q, List.mem_cons_of_mem _ hq, hqe⟩

/-- The loop fails as soon as one entry it visits fails to render. -/
theorem convertStreamLoop_fails
    (G : EnhancedEvent → String → Except GoError String) (ev : EnhancedEvent)
    (l : List (String × String)) (acc : GoMap String)
    (h : ∃ p ∈ l, ∃ e, G ev p.2 = .error e) :
    ∃ e, convertStreamLoop G ev l acc = .error e := by
  induction l generalizing acc with
  | nil => simp at h
  | cons p rest ih =>
    obtain ⟨key, value⟩ := p
    cases hg : G ev value with
    | error err => exact ⟨err, by simp only [convertStreamLoop, hg]⟩
    | ok rendered =>
      simp only [convertStreamLoop, hg]
      apply ih
      obtain ⟨q, hq, e, hqe⟩ := h
      rcases List.mem_cons.1 hq with heq | hrest
      · subst heq
        rw [hg] at hqe
        cases hqe
      · exact ⟨q, hrest, e, hqe⟩

/-- Keys the loop does not visit keep the value they had in `result`. -/
theorem convertStreamLoop_lookup_other
    (G : EnhancedEvent → String → Except GoError String) (ev : EnhancedEvent)
    (l : List (String × String)) (acc res : GoMap String)
    (h : convertStreamLoop G ev l acc = .ok res) (k : String) (hk : k ∉ l.map Prod.fst) :
    res.lookup k = acc.lookup k := by
  induction l generalizing acc with
  | nil =>
    simp only [convertStreamLoop] at h
    cases h
    rfl
  | cons p rest ih =>
    obtain ⟨key, value⟩ := p
    rw [List.map_cons, List.mem_cons, not_or] at hk
    cases hg : G ev value with
    | error err => simp [convertStreamLoop, hg] at h
    | ok rendered =>
      simp only [convertStreamLoop, hg] at h
      rw [ih _ h hk.2, GoMap.lookup_set, if_neg hk.1]

/-- A key the loop visits ends up with the rendering of its value. -/
theorem convertStreamLoop_lookup
    (G : EnhancedEvent → String → Except GoError String) (ev : EnhancedEvent)
    (l : List (String × String)) (acc res : GoMap String)
    (hnd : (l.map Prod.fst).Nodup)
    (h : convertStreamLoop G ev l acc = .ok res) (k v : String) (hm : (k, v) ∈ l) :
    ∃ r, G ev v = .ok r ∧ res.lookup k = some r := by
  induction l generalizing acc with
  | nil => simp at hm
  | cons p rest ih =>
    obtain ⟨key, value⟩ := p
    rw [List.map_cons, List.nodup_cons] at hnd
    cases hg : G ev value with
    | error err => simp [convertStreamLoop, hg] at h
    | ok rendered =>
      simp only [convertStreamLoop, hg] at h
      rcases List.mem_cons.1 hm with heq | hrest
      · cases heq
        refine ⟨rendered, hg, ?_⟩
        rw [convertStreamLoop_lookup_other G ev rest _ res h k hnd.1, GoMap.lookup_set, if_pos rfl]
      · exact ih _ hnd.2 h hrest

theorem nodup_order (ord : RangeOrder) (m : GoMap String) :
    ((ord.order m.entries).map Prod.fst).Nodup :=
  ((ord.perm m.entries).map Prod.fst).nodup_iff.2 m.nodup

theorem mem_order (ord : RangeOrder) (m : GoMap String) (p : String × String) :
    p ∈ ord.order m.entries ↔ p ∈ m.entries :=
  (ord.perm m.entries).mem_iff

/-- Every key of the input of `convertStreamTemplate` is a key of its result,
with the rendering of the input value. -/
theorem convertStreamTemplate_lookup
    (G : EnhancedEvent → String → Except GoError String) (ev : EnhancedEvent)
    (ord : RangeOrder) (m res : GoMap String)
    (h : convertStreamTemplate G ord m ev = .ok res) (k v : String)
    (hk : m.lookup k = some v) :
    ∃ r, G ev v = .ok r ∧ res.lookup k = some r :=
  convertStreamLoop_lookup G ev _ _ res (nodup_order ord m) h k v
    ((mem_order ord m _).2 ((GoMap.lookup_eq_some_iff m k v).1 hk))

/-- An error of `convertStreamTemplate` is the rendering error of an entry. -/
theorem convertStreamTemplate_error
    (G : EnhancedEvent → String → Except GoError String) (ev : EnhancedEvent)
    (ord : RangeOrder) (m : GoMap String) (e : GoError)
    (h : convertStreamTemplate G ord m ev = .error e) :
    ∃ p ∈ m.entries, G ev p.2 = .error e := by
  obtain ⟨p, hp, hpe⟩ := convertStreamLoop_error G ev _ _ e h
  exact ⟨p, (mem_order ord m p).1 hp, hpe⟩

/-- The function `convertStreamTemplate` fails exactly when an entry fails. -/
theorem convertStreamTemplate_error_iff
    (G : EnhancedEvent → String → Except GoError String) (ev : EnhancedEvent)
    (ord : RangeOrder) (m : GoMap String) :
    (∃ e, convertStreamTemplate G ord m ev = .error e) ↔
      ∃ p ∈ m.entries, ∃ e, G ev p.2 = .error e := by
  constructor
  · rintro ⟨e, h⟩
    obtain ⟨p, hp, hpe⟩ := convertStreamTemplate_error G ev ord m e h
    exact ⟨p, hp, e, hpe⟩
  · rintro ⟨p, hp, e, hpe⟩
    exact convertStreamLoop_fails G ev _ _ ⟨p, (mem_order ord m p).2 hp, e, hpe⟩

/-! ## The paths of `Send` -/

theorem relabel_URL (cfg : LokiConfig) (ev : EnhancedEvent) : (relabel cfg ev).URL = cfg.URL := by
  unfold relabel
  split <;> rfl

theorem relabel_IgnoreNamespaces (cfg : LokiConfig) (ev : EnhancedEvent) :
    (relabel cfg ev).IgnoreNamespaces = cfg.IgnoreNamespaces := by
  unfold relabel
  split <;> rfl

theorem relabel_Headers (cfg : LokiConfig) (ev : EnhancedEvent) :
    (relabel cfg ev).Headers.getD GoMap.empty = cfg.Headers.getD GoMap.empty := by
  unfold relabel
  split <;> rfl

/-- A call that reaches line 124 hands exactly its request to `client.Do`,
and returns what the exchange decides. -/
theorem Send_of_constructed (env : Env) (cfg : LokiConfig) (ev : EnhancedEvent)
    (eventBody : String) (streamLabels : GoMap String) (reqBody : String)
    (h : RequestConstructed env cfg ev eventBody streamLabels reqBody) :
    (Send env cfg ev).requests = [builtRequest env cfg ev eventBody streamLabels reqBody] ∧
    (Send env cfg ev).err =
      exchangeOutcome (env.clientDo (builtRequest env cfg ev eventBody streamLabels reqBody)) := by
  obtain ⟨h1, h2, h3, h4, h5⟩ := h
  unfold labelsToConvert at h3
  unfold Send builtRequest requestHeader exchangeOutcome
  simp only [h1, relabel_IgnoreNamespaces, h2, h3, h4, relabel_URL, h5, relabel_Headers]
  cases hd : env.clientDo _ with
  | error err => simp
  | ok resp =>
    cases hb : resp.Body with
    | error err => simp [hb]
    | ok body =>
      by_cases hs : resp.StatusCode ≥ 200 ∧ resp.StatusCode < 300
      · simp [hb, hs]
      · simp [hb, hs]

/-- A call that hands a request to `client.Do` reached line 124. -/
theorem constructed_of_requests (env : Env) (cfg : LokiConfig) (ev : EnhancedEvent)
    (req : Request) (h : (Send env cfg ev).requests = [req]) :
    ∃ eventBody streamLabels reqBody,
      RequestConstructed env cfg ev eventBody streamLabels reqBody ∧
      req = builtRequest env cfg ev eventBody streamLabels reqBody := by
  cases h1 : env.serializeEventWithLayout ((relabel cfg ev).Layout.getD GoMap.empty) ev with
  | error err => simp [Send, h1] at h
  | ok eventBody =>
    cases h2 : cfg.IgnoreNamespaces.any
        (fun namespace_ => namespace_ == ev.InvolvedObject.Namespace) with
    | true => simp [Send, h1, relabel_IgnoreNamespaces, h2] at h
    | false =>
      cases h3 : convertStreamTemplate env.GetString env.labelOrder
          (addNamespaceLabels ((relabel cfg ev).StreamLabels.getD GoMap.empty) ev) ev with
      | error err => simp [Send, h1, relabel_IgnoreNamespaces, h2, h3] at h
      | ok streamLabels =>
        cases h4 : env.jsonMarshal
            ⟨[⟨streamLabels, [[generateTimestamp env.unixNow, eventBody]]⟩]⟩ with
        | error err => simp [Send, h1, relabel_IgnoreNamespaces, h2, h3, h4] at h
        | ok reqBody =>
          cases h5 : env.newRequest "POST" cfg.URL reqBody with
          | some err =>
            simp [Send, h1, relabel_IgnoreNamespaces, h2, h3, h4, relabel_URL, h5] at h
          | none =>
            have hc : RequestConstructed env cfg ev eventBody streamLabels reqBody :=
              ⟨h1, h2, h3, h4, h5⟩
            have hr := (Send_of_constructed env cfg ev _ _ _ hc).1
            rw [hr] at h
            exact ⟨eventBody, streamLabels, reqBody, hc, (List.head_eq_of_cons_eq h).symm⟩

theorem Send_layoutUsed (env : Env) (cfg : LokiConfig) (ev : EnhancedEvent) :
    (Send env cfg ev).layoutUsed = (relabel cfg ev).Layout.getD GoMap.empty := by
  unfold Send
  simp only []
  repeat (first | rfl | split)

theorem relabel_StreamLabels_lookup (cfg : LokiConfig) (ev : EnhancedEvent) (k : String) :
    ((relabel cfg ev).StreamLabels.getD GoMap.empty).lookup k =
      if ev.InvolvedObject.Kind = "Node" ∧ k = "host" then some ev.InvolvedObject.Name
      else (cfg.StreamLabels.getD GoMap.empty).lookup k := by
  unfold relabel
  by_cases hkind : ev.InvolvedObject.Kind = "Node"
  · by_cases hk : k = "host"
    · simp [hkind, hk, GoMap.lookup_set]
    · simp [hkind, hk, GoMap.lookup_set]
  · simp [hkind]

/-- What each key reads as in the stream labels handed to
`convertStreamTemplate`. -/
theorem labelsToConvert_lookup (cfg : LokiConfig) (ev : EnhancedEvent) (k : String) :
    (labelsToConvert cfg ev).lookup k =
      if ev.InvolvedObject.Namespace ≠ "" ∧ k = "index" then
        some ((cfg.StreamLabels.getD GoMap.empty).index "cluster" ++ "-"
          ++ ev.InvolvedObject.Namespace)
      else if ev.InvolvedObject.Namespace ≠ "" ∧ k = "namespace" then
        some ev.InvolvedObject.Namespace
      else if ev.InvolvedObject.Kind = "Node" ∧ k = "host" then some ev.InvolvedObject.Name
      else (cfg.StreamLabels.getD GoMap.empty).lookup k := by
  have hcluster : ((relabel cfg ev).StreamLabels.getD GoMap.empty).index "cluster"
      = (cfg.StreamLabels.getD GoMap.empty).index "cluster" := by
    unfold GoMap.index
    rw [relabel_StreamLabels_lookup]
    simp
  unfold labelsToConvert addNamespaceLabels
  by_cases hns : ev.InvolvedObject.Namespace = ""
  · simp [hns, relabel_StreamLabels_lookup]
  · by_cases hi : k = "index"
    · simp [hns, hi, GoMap.lookup_set, GoMap.index_set_ne, hcluster]
    · by_cases hn : k = "namespace"
      · simp [hns, hn, GoMap.lookup_set]
      · simp [hns, hi, hn, GoMap.lookup_set, relabel_StreamLabels_lookup]

/-- The request `Send` hands to `client.Do` posts the JSON encoding of one
stream: the rendered stream labels, and one entry pairing the timestamp with
the body the serializer returned for the layout it was handed. -/
theorem Send_request_body (env : Env) (cfg : LokiConfig) (ev : EnhancedEvent)
    (req : Request) (hreq : (Send env cfg ev).requests = [req]) :
    env.jsonMarshal req.payload = .ok req.body ∧
    ∃ st eventBody, req.payload.Streams = [st] ∧
      env.serializeEventWithLayout (Send env cfg ev).layoutUsed ev = .ok eventBody ∧
      st.Values = [[generateTimestamp env.unixNow, eventBody]] ∧
      convertStreamTemplate env.GetString env.labelOrder (labelsToConvert cfg ev) ev
        = .ok st.Stream := by
  obtain ⟨eventBody, streamLabels, reqBody, hc, rfl⟩ := constructed_of_requests env cfg ev req hreq
  rw [Send_layoutUsed]
  exact ⟨hc.2.2.2.1, _, eventBody, rfl, hc.1, rfl, hc.2.2.1⟩

/-! ## The claims about `Send` -/

/-- C1, as stated, fails: an event of an ignored namespace whose body cannot
be serialized makes `Send` return the serializer error, because the body is
serialized before the ignore list is consulted. -/
theorem Send_ignored_namespace_may_fail :
    ¬ (systemEvent.InvolvedObject.Namespace ∈ brokenLayoutConfig.IgnoreNamespaces →
        (Send (sampleEnv (backend 200 "")) brokenLayoutConfig systemEvent).err = none ∧
        (Send (sampleEnv (backend 200 "")) brokenLayoutConfig systemEvent).requests = []) := by
  intro h
  have h1 := (h (by decide)).1
  revert h1
  decide

/-- C1, amended: for an event whose involved-object namespace is in
`ignoreNamespaces`, `Send` hands no request to the HTTP client, returns no
error when the layout serializer succeeds, and returns the serializer error
when it fails; the template renderer plays no part. -/
theorem Send_ignored_namespace (env : Env) (cfg : LokiConfig) (ev : EnhancedEvent)
    (h : ev.InvolvedObject.Namespace ∈ cfg.IgnoreNamespaces) :
    (Send env cfg ev).requests = [] ∧
    (∀ body, env.serializeEventWithLayout (Send env cfg ev).layoutUsed ev = .ok body →
      (Send env cfg ev).err = none) ∧
    (∀ e, env.serializeEventWithLayout (Send env cfg ev).layoutUsed ev = .error e →
      (Send env cfg ev).err = some e) := by
  have hany : cfg.IgnoreNamespaces.any
      (fun namespace_ => namespace_ == ev.InvolvedObject.Namespace) = true := by
    rw [List.any_eq_true]
    exact ⟨_, h, by simp⟩
  rw [Send_layoutUsed]
  cases hs : env.serializeEventWithLayout ((relabel cfg ev).Layout.getD GoMap.empty) ev with
  | error err => simp [Send, hs]
  | ok body => simp [Send, hs, relabel_IgnoreNamespaces, hany]

/-- C1, amended, at an ignored pod event with the sample collaborators. -/
theorem Send_ignored_namespace_witness :
    (Send (sampleEnv (backend 200 "")) ignoringConfig systemEvent).requests = [] ∧
    (∀ body, (sampleEnv (backend 200 "")).serializeEventWithLayout
        (Send (sampleEnv (backend 200 "")) ignoringConfig systemEvent).layoutUsed systemEvent
          = .ok body →
      (Send (sampleEnv (backend 200 "")) ignoringConfig systemEvent).err = none) ∧
    (∀ e, (sampleEnv (backend 200 "")).serializeEventWithLayout
        (Send (sampleEnv (backend 200 "")) ignoringConfig systemEvent).layoutUsed systemEvent
          = .error e →
      (Send (sampleEnv (backend 200 "")) ignoringConfig systemEvent).err = some e) :=
  Send_ignored_namespace (sampleEnv (backend 200 "")) ignoringConfig systemEvent (by decide)

/-- C2: when `Send` hands a request to the HTTP client and the response has
status `s` and body text `b`, `Send` returns no error exactly when
`200 ≤ s < 300`, and otherwise returns an error whose text contains `b`. -/
theorem Send_classifies_response (env : Env) (cfg : LokiConfig) (ev : EnhancedEvent)
    (req : Request) (s : Int) (b : String)
    (hreq : (Send env cfg ev).requests = [req])
    (hresp : env.clientDo req = .ok ⟨s, .ok b⟩) :
    ((Send env cfg ev).err = none ↔ (200 ≤ s ∧ s < 300)) ∧
    (¬ (200 ≤ s ∧ s < 300) →
      ∃ e, (Send env cfg ev).err = some e ∧ b.data <:+: e.text.data) := by
  obtain ⟨eventBody, streamLabels, reqBody, hc, rfl⟩ := constructed_of_requests env cfg ev req hreq
  have herr := (Send_of_constructed env cfg ev _ _ _ hc).2
  rw [hresp] at herr
  rw [herr]
  by_cases hs : 200 ≤ s ∧ s < 300
  · simp [exchangeOutcome, hs]
  · refine ⟨by simp [exchangeOutcome, hs], fun _ => ?_⟩
    refine ⟨⟨"not successfull (2xx) response: " ++ b⟩, by simp [exchangeOutcome, hs], ?_⟩
    rw [String.data_append]
    exact (List.suffix_append _ _).isInfix

/-- C2 at the test event with a backend that answers 500 and `boom`. -/
theorem Send_classifies_response_witness :
    ((Send (sampleEnv (backend 500 "boom")) testConfig testEvent).err = none ↔
      ((200 : Int) ≤ 500 ∧ (500 : Int) < 300)) ∧
    (¬ ((200 : Int) ≤ 500 ∧ (500 : Int) < 300) →
      ∃ e, (Send (sampleEnv (backend 500 "boom")) testConfig testEvent).err = some e ∧
        "boom".data <:+: e.text.data) :=
  Send_classifies_response (sampleEnv (backend 500 "boom")) testConfig testEvent _ 500 "boom"
    rfl rfl

/-- C3: when `Send` hands a request to the HTTP client, the posted body is the
JSON encoding of a message with one stream; every key of the configured
`streamLabels` is a key of that stream, and the value delivered under a key
other than `namespace`, `index` and `host` is what the template renderer
returns for the configured value of that key. -/
theorem Send_delivers_configured_labels (env : Env) (cfg : LokiConfig) (ev : EnhancedEvent)
    (req : Request) (hreq : (Send env cfg ev).requests = [req]) :
    env.jsonMarshal req.payload = .ok req.body ∧
    ∃ st, req.payload.Streams = [st] ∧
      ∀ k v, (cfg.StreamLabels.getD GoMap.empty).lookup k = some v →
        ∃ d, st.Stream.lookup k = some d ∧
          (k ≠ "namespace" → k ≠ "index" → k ≠ "host" → env.GetString ev v = .ok d) := by
  obtain ⟨hbody, st, eventBody, hst, _, _, hconv⟩ := Send_request_body env cfg ev req hreq
  refine ⟨hbody, st, hst, fun k v hk => ?_⟩
  have hl := labelsToConvert_lookup cfg ev k
  by_cases h1 : ev.InvolvedObject.Namespace ≠ "" ∧ k = "index"
  · rw [if_pos h1] at hl
    obtain ⟨r, _, hr⟩ := convertStreamTemplate_lookup _ ev _ _ _ hconv k _ hl
    exact ⟨r, hr, fun _ hi _ => absurd h1.2 hi⟩
  · rw [if_neg h1] at hl
    by_cases h2 : ev.InvolvedObject.Namespace ≠ "" ∧ k = "namespace"
    · rw [if_pos h2] at hl
      obtain ⟨r, _, hr⟩ := convertStreamTemplate_lookup _ ev _ _ _ hconv k _ hl
      exact ⟨r, hr, fun hn _ _ => absurd h2.2 hn⟩
    · rw [if_neg h2] at hl
      by_cases h3 : ev.InvolvedObject.Kind = "Node" ∧ k = "host"
      · rw [if_pos h3] at hl
        obtain ⟨r, _, hr⟩ := convertStreamTemplate_lookup _ ev _ _ _ hconv k _ hl
        exact ⟨r, hr, fun _ _ hh => absurd h3.2 hh⟩
      · rw [if_neg h3, hk] at hl
        obtain ⟨r, hg, hr⟩ := convertStreamTemplate_lookup _ ev _ _ _ hconv k _ hl
        exact ⟨r, hr, fun _ _ _ => hg⟩

/-- C3 at the input of `TestLoki_Send_StreamLabelsTemplated`: the posted body
encodes a stream with `app = kube-events` and `object_namespace = prod`. -/
theorem Send_delivers_configured_labels_witness :
    ∃ req st, (Send (sampleEnv (backend 200 "")) testConfig testEvent).requests = [req] ∧
      (sampleEnv (backend 200 "")).jsonMarshal req.payload = .ok req.body ∧
      req.payload.Streams = [st] ∧
      st.Stream.lookup "app" = some "kube-events" ∧
      st.Stream.lookup "object_namespace" = some "prod" := by
  obtain ⟨hbody, st, hst, h⟩ :=
    Send_delivers_configured_labels (sampleEnv (backend 200 "")) testConfig testEvent _ rfl
  obtain ⟨d1, hd1, hg1⟩ := h "app" "kube-events" (by decide)
  obtain ⟨d2, hd2, hg2⟩ :=
    h "object_namespace" "\x7b\x7b .InvolvedObject.Namespace \x7d\x7d" (by decide)
  have e1 : Except.ok "kube-events" = Except.ok d1 := hg1 (by decide) (by decide) (by decide)
  have e2 : Except.ok "prod" = Except.ok d2 := hg2 (by decide) (by decide) (by decide)
  cases e1
  cases e2
  exact ⟨_, st, rfl, hbody, hst, hd1, hd2⟩

/-- C4, as stated, fails: with a layout that cannot be serialized and a
stream label that cannot be rendered, an event that is not ignored makes
`Send` return the serializer error, which is the render error of no stream
label. -/
theorem Send_label_error_hidden_by_serializer :
    ¬ (testEvent.InvolvedObject.Namespace ∉ brokenLayoutConfig.IgnoreNamespaces →
        (∃ p ∈ (labelsToConvert brokenLayoutConfig testEvent).entries,
          ∃ e, sampleGetString testEvent p.2 = .error e) →
        (∃ p ∈ (labelsToConvert brokenLayoutConfig testEvent).entries,
          ∃ e, sampleGetString testEvent p.2 = .error e ∧
            (Send (sampleEnv (backend 200 "")) brokenLayoutConfig testEvent).err = some e) ∧
        (Send (sampleEnv (backend 200 "")) brokenLayoutConfig testEvent).requests = []) := by
  intro h
  obtain ⟨⟨p, hp, e, hpe, herr⟩, _⟩ :=
    h (by decide) ⟨("app", "\x7b\x7b .NoSuchLabel \x7d\x7d"), by decide, _, rfl⟩
  have hsend : (Send (sampleEnv (backend 200 "")) brokenLayoutConfig testEvent).err
      = some ⟨"template: cannot render \x7b\x7b .NoSuchField \x7d\x7d"⟩ := by decide
  rw [hsend] at herr
  have he : e = ⟨"template: cannot render \x7b\x7b .NoSuchField \x7d\x7d"⟩ := by
    simpa using herr.symm
  have hall : ∀ q ∈ (labelsToConvert brokenLayoutConfig testEvent).entries,
      (match sampleGetString testEvent q.2 with
        | .error err => err.text
        | .ok _ => "") ≠ "template: cannot render \x7b\x7b .NoSuchField \x7d\x7d" := by
    decide
  apply hall p hp
  rw [hpe, he]

/-- C4, amended: for an event that is not ignored and whose body the layout
serializer accepts, if some entry of the stream labels handed to
`convertStreamTemplate` (the per-event `namespace`, `index` and `host` entries
included) fails to render, `Send` returns the render error of one of the
failing entries and hands no request to the HTTP client; and, for every input
map and every order of its `range`, `convertStreamTemplate` fails exactly when
some entry fails to render. -/
theorem Send_label_render_error (env : Env) (cfg : LokiConfig) (ev : EnhancedEvent) :
    (ev.InvolvedObject.Namespace ∉ cfg.IgnoreNamespaces →
      (∃ body, env.serializeEventWithLayout (Send env cfg ev).layoutUsed ev = .ok body) →
      (∃ p ∈ (labelsToConvert cfg ev).entries, ∃ e, env.GetString ev p.2 = .error e) →
      (∃ p ∈ (labelsToConvert cfg ev).entries,
        ∃ e, env.GetString ev p.2 = .error e ∧ (Send env cfg ev).err = some e) ∧
      (Send env cfg ev).requests = []) ∧
    (∀ (ord : RangeOrder) (m : GoMap String),
      (∃ e, convertStreamTemplate env.GetString ord m ev = .error e) ↔
        ∃ p ∈ m.entries, ∃ e, env.GetString ev p.2 = .error e) := by
  refine ⟨fun hns hser hfail => ?_, fun ord m => convertStreamTemplate_error_iff _ ev ord m⟩
  obtain ⟨body, hser⟩ := hser
  rw [Send_layoutUsed] at hser
  have hany : cfg.IgnoreNamespaces.any
      (fun namespace_ => namespace_ == ev.InvolvedObject.Namespace) = false := by
    rw [Bool.eq_false_iff]
    intro hc
    rw [List.any_eq_true] at hc
    obtain ⟨x, hx, hxe⟩ := hc
    have : x = ev.InvolvedObject.Namespace := by simpa using hxe
    exact hns (this ▸ hx)
  obtain ⟨e, he⟩ := (convertStreamTemplate_error_iff env.GetString ev env.labelOrder
    (labelsToConvert cfg ev)).2 hfail
  obtain ⟨p, hp, hpe⟩ := convertStreamTemplate_error _ ev _ _ e he
  unfold labelsToConvert at he
  refine ⟨⟨p, hp, e, hpe, ?_⟩, ?_⟩
  · simp [Send, hser, relabel_IgnoreNamespaces, hany, he]
  · simp [Send, hser, relabel_IgnoreNamespaces, hany, he]

/-- C4, amended, at a configuration whose `app` label cannot be rendered, and
the `convertStreamTemplate` part at the test configuration, where every label
renders. -/
theorem Send_label_render_error_witness :
    ((∃ p ∈ (labelsToConvert brokenLabelConfig testEvent).entries,
      ∃ e, (sampleEnv (backend 200 "")).GetString testEvent p.2 = .error e ∧
        (Send (sampleEnv (backend 200 "")) brokenLabelConfig testEvent).err = some e) ∧
      (Send (sampleEnv (backend 200 "")) brokenLabelConfig testEvent).requests = []) ∧
    ((∃ e, convertStreamTemplate (sampleEnv (backend 200 "")).GetString RangeOrder.listed
          (testConfig.StreamLabels.getD GoMap.empty) testEvent = .error e) ↔
      ∃ p ∈ (testConfig.StreamLabels.getD GoMap.empty).entries,
        ∃ e, (sampleEnv (backend 200 "")).GetString testEvent p.2 = .error e) :=
  ⟨(Send_label_render_error (sampleEnv (backend 200 "")) brokenLabelConfig testEvent).1
      (by decide) ⟨"\x7b\x7d", rfl⟩
      ⟨("app", "\x7b\x7b .NoSuchLabel \x7d\x7d"), by decide, _, rfl⟩,
    (Send_label_render_error (sampleEnv (backend 200 "")) testConfig testEvent).2
      RangeOrder.listed (testConfig.StreamLabels.getD GoMap.empty)⟩

/-- C5, as stated, fails: the `namespace` and `index` values pass through the
template renderer like every other stream label, so a namespace text the
renderer does not leave unchanged is not delivered as it is. -/
theorem Send_namespace_label_is_rendered :
    templatedNamespaceEvent.InvolvedObject.Namespace ≠ "" ∧
    templatedNamespaceEvent.InvolvedObject.Namespace ∉ testConfig.IgnoreNamespaces ∧
    ¬ (∀ req st,
        (Send (sampleEnv (backend 200 "")) testConfig templatedNamespaceEvent).requests = [req] →
        req.payload.Streams = [st] →
        st.Stream.lookup "namespace" = some templatedNamespaceEvent.InvolvedObject.Namespace ∧
        st.Stream.lookup "index" = some
          ((testConfig.StreamLabels.getD GoMap.empty).index "cluster" ++ "-"
            ++ templatedNamespaceEvent.InvolvedObject.Namespace)) := by
  refine ⟨by decide, by decide, fun h => ?_⟩
  have h1 := (h _ _ rfl rfl).1
  revert h1
  decide

/-- C5, amended: for an event with a non-empty involved-object namespace `ns`
for which `Send` hands a request to the HTTP client, `ns` is not ignored, the
posted body is the JSON encoding of a message with one stream, and that stream
has under `namespace` the renderer output for `ns` and under `index` the
renderer output for `<cluster> + "-" + ns`, where `<cluster>` is the
configured value of the `cluster` stream label (the empty string if absent);
these are `ns` and `<cluster>-ns` themselves when the renderer returns those
texts unchanged. -/
theorem Send_namespace_labels (env : Env) (cfg : LokiConfig) (ev : EnhancedEvent)
    (req : Request) (hns : ev.InvolvedObject.Namespace ≠ "")
    (hreq : (Send env cfg ev).requests = [req]) :
    ev.InvolvedObject.Namespace ∉ cfg.IgnoreNamespaces ∧
    env.jsonMarshal req.payload = .ok req.body ∧
    ∃ st, req.payload.Streams = [st] ∧
      (∃ r, env.GetString ev ev.InvolvedObject.Namespace = .ok r ∧
        st.Stream.lookup "namespace" = some r) ∧
      (∃ r, env.GetString ev ((cfg.StreamLabels.getD GoMap.empty).index "cluster" ++ "-"
          ++ ev.InvolvedObject.Namespace) = .ok r ∧
        st.Stream.lookup "index" = some r) ∧
      (env.GetString ev ev.InvolvedObject.Namespace = .ok ev.InvolvedObject.Namespace →
        st.Stream.lookup "namespace" = some ev.InvolvedObject.Namespace) ∧
      (env.GetString ev ((cfg.StreamLabels.getD GoMap.empty).index "cluster" ++ "-"
          ++ ev.InvolvedObject.Namespace)
          = .ok ((cfg.StreamLabels.getD GoMap.empty).index "cluster" ++ "-"
            ++ ev.InvolvedObject.Namespace) →
        st.Stream.lookup "index" = some
          ((cfg.StreamLabels.getD GoMap.empty).index "cluster" ++ "-"
            ++ ev.InvolvedObject.Namespace)) := by
  obtain ⟨hbody, st, eventBody, hst, _, _, hconv⟩ := Send_request_body env cfg ev req hreq
  obtain ⟨_, _, _, hc, _⟩ := constructed_of_requests env cfg ev req hreq
  have hl1 := labelsToConvert_lookup cfg ev "namespace"
  rw [if_neg (by simp), if_pos ⟨hns, rfl⟩] at hl1
  have hl2 := labelsToConvert_lookup cfg ev "index"
  rw [if_pos ⟨hns, rfl⟩] at hl2
  obtain ⟨r1, hg1, hr1⟩ := convertStreamTemplate_lookup _ ev _ _ _ hconv _ _ hl1
  obtain ⟨r2, hg2, hr2⟩ := convertStreamTemplate_lookup _ ev _ _ _ hconv _ _ hl2
  refine ⟨?_, hbody, st, hst, ⟨r1, hg1, hr1⟩, ⟨r2, hg2, hr2⟩, fun hid => ?_, fun hid => ?_⟩
  · intro hmem
    have hany := hc.2.1
    rw [Bool.eq_false_iff] at hany
    apply hany
    rw [List.any_eq_true]
    exact ⟨_, hmem, by simp⟩
  · rw [hid] at hg1
    cases hg1
    exact hr1
  · rw [hid] at hg2
    cases hg2
    exact hr2

/-- C5, amended, at the test event of the namespace `prod`: the posted body
encodes a stream with `namespace = prod` and `index = -prod`. -/
theorem Send_namespace_labels_witness :
    ∃ req st, (Send (sampleEnv (backend 200 "")) testConfig testEvent).requests = [req] ∧
      (sampleEnv (backend 200 "")).jsonMarshal req.payload = .ok req.body ∧
      req.payload.Streams = [st] ∧
      st.Stream.lookup "namespace" = some "prod" ∧
      st.Stream.lookup "index" = some "-prod" := by
  obtain ⟨_, hbody, st, hst, _, _, h1, h2⟩ :=
    Send_namespace_labels (sampleEnv (backend 200 "")) testConfig testEvent _ (by decide) rfl
  exact ⟨_, st, rfl, hbody, hst, h1 rfl, h2 rfl⟩

/-- C6, as stated, fails: the `host` value passes through the template
renderer like every other stream label, so a node name the renderer does not
leave unchanged is not delivered as it is. -/
theorem Send_host_label_is_rendered :
    templatedNodeEvent.InvolvedObject.Kind = "Node" ∧
    ¬ (∀ req st,
        (Send (sampleEnv (backend 200 "")) testConfig templatedNodeEvent).requests = [req] →
        req.payload.Streams = [st] →
        st.Stream.lookup "host" = some templatedNodeEvent.InvolvedObject.Name) := by
  refine ⟨by decide, fun h => ?_⟩
  have h1 := h _ _ rfl rfl
  revert h1
  decide

/-- C6, amended: the layout `Send` hands to the layout serializer (a serializer
error on it is the error `Send` returns, and the serializer output on it is the
body of the posted entry) has no `name` entry for an event of kind `Node`,
whatever the configured layout contained, and has `name` set to the template
of the involved object name for an event of any other kind; and when `Send`
hands a request to the HTTP client for an event of kind `Node`, the posted
body is the JSON encoding of a message whose stream has under `host` the
renderer output for the involved object name (the name itself when the
renderer returns it unchanged). -/
theorem Send_relabels_by_kind (env : Env) (cfg : LokiConfig) (ev : EnhancedEvent) :
    (∀ e, env.serializeEventWithLayout (Send env cfg ev).layoutUsed ev = .error e →
      (Send env cfg ev).err = some e) ∧
    (∀ req, (Send env cfg ev).requests = [req] →
      env.jsonMarshal req.payload = .ok req.body ∧
      ∃ st eventBody, req.payload.Streams = [st] ∧
        env.serializeEventWithLayout (Send env cfg ev).layoutUsed ev = .ok eventBody ∧
        st.Values = [[generateTimestamp env.unixNow, eventBody]]) ∧
    (ev.InvolvedObject.Kind = "Node" →
      (Send env cfg ev).layoutUsed.lookup "name" = none ∧
      ∀ req, (Send env cfg ev).requests = [req] →
        ∃ st, req.payload.Streams = [st] ∧
          (∃ r, env.GetString ev ev.InvolvedObject.Name = .ok r ∧
            st.Stream.lookup "host" = some r) ∧
          (env.GetString ev ev.InvolvedObject.Name = .ok ev.InvolvedObject.Name →
            st.Stream.lookup "host" = some ev.InvolvedObject.Name)) ∧
    (ev.InvolvedObject.Kind ≠ "Node" →
      (Send env cfg ev).layoutUsed.lookup "name" = some nameTemplate) := by
  refine ⟨fun e he => ?_, fun req hreq => ?_, fun hkind => ⟨?_, fun req hreq => ?_⟩,
    fun hkind => ?_⟩
  · rw [Send_layoutUsed] at he
    simp [Send, he]
  · obtain ⟨hbody, st, eventBody, hst, hser, hval, _⟩ := Send_request_body env cfg ev req hreq
    exact ⟨hbody, st, eventBody, hst, hser, hval⟩
  · rw [Send_layoutUsed]
    simp [relabel, hkind, GoMap.lookup_delete]
  · obtain ⟨_, st, _, hst, _, _, hconv⟩ := Send_request_body env cfg ev req hreq
    have hl := labelsToConvert_lookup cfg ev "host"
    rw [if_neg (by simp), if_neg (by simp), if_pos ⟨hkind, rfl⟩] at hl
    obtain ⟨r, hg, hr⟩ := convertStreamTemplate_lookup _ ev _ _ _ hconv _ _ hl
    refine ⟨st, hst, ⟨r, hg, hr⟩, fun hid => ?_⟩
    rw [hid] at hg
    cases hg
    exact hr
  · rw [Send_layoutUsed]
    simp [relabel, hkind, GoMap.lookup_set, nameTemplate]

/-- C6, amended, at a configuration whose layout has its own `name` entry: a
node event is serialized without a `name` entry and posted with
`host = node-1`; a pod event is serialized with the `name` template. -/
theorem Send_relabels_by_kind_witness :
    (namedLayoutConfig.Layout.getD GoMap.empty).lookup "name" = some (.str "fixed-name") ∧
    (Send (sampleEnv (backend 200 "")) namedLayoutConfig nodeEvent).layoutUsed.lookup "name"
      = none ∧
    (∃ req st, (Send (sampleEnv (backend 200 "")) namedLayoutConfig nodeEvent).requests = [req] ∧
      (sampleEnv (backend 200 "")).jsonMarshal req.payload = .ok req.body ∧
      req.payload.Streams = [st] ∧
      st.Stream.lookup "host" = some "node-1") ∧
    (Send (sampleEnv (backend 200 "")) namedLayoutConfig testEvent).layoutUsed.lookup "name"
      = some nameTemplate := by
  have hnode := Send_relabels_by_kind (sampleEnv (backend 200 "")) namedLayoutConfig nodeEvent
  have hpod := Send_relabels_by_kind (sampleEnv (backend 200 "")) namedLayoutConfig testEvent
  obtain ⟨hname, hhost⟩ := hnode.2.2.1 (by decide)
  obtain ⟨st, hst, _, hid⟩ := hhost _ rfl
  exact ⟨rfl, hname, ⟨_, st, rfl, (hnode.2.1 _ rfl).1, hst, hid rfl⟩, hpod.2.2.2 (by decide)⟩

/-- C7, evaluated where the code departs from it: when the backend cannot be
reached, `Send` returns the transport error and leaves the `namespace` and
`index` labels of the event in `streamLabels`, which did not have them. -/
theorem Send_transport_error_keeps_event_labels :
    (Send (sampleEnv unreachable) testConfig testEvent).err
      = some ⟨"dial tcp: connection refused"⟩ ∧
    (testConfig.StreamLabels.getD GoMap.empty).lookup "namespace" = none ∧
    (testConfig.StreamLabels.getD GoMap.empty).lookup "index" = none ∧
    ((Send (sampleEnv unreachable) testConfig testEvent).cfg.StreamLabels.getD
      GoMap.empty).lookup "namespace" = some "prod" ∧
    ((Send (sampleEnv unreachable) testConfig testEvent).cfg.StreamLabels.getD
      GoMap.empty).lookup "index" = some "-prod" := by
  decide

/-- When `client.Do` returns a response, `Send` leaves `streamLabels` without
the keys `namespace`, `index` and `host` and with every other key as
configured. -/
theorem Send_cleanup_after_response (env : Env) (cfg : LokiConfig) (ev : EnhancedEvent)
    (req : Request) (resp : Response)
    (hreq : (Send env cfg ev).requests = [req]) (hresp : env.clientDo req = .ok resp)
    (k : String) :
    ((Send env cfg ev).cfg.StreamLabels.getD GoMap.empty).lookup k =
      if k = "namespace" ∨ k = "index" ∨ k = "host" then none
      else (cfg.StreamLabels.getD GoMap.empty).lookup k := by
  obtain ⟨eventBody, streamLabels, reqBody, hc, rfl⟩ := constructed_of_requests env cfg ev req hreq
  obtain ⟨h1, h2, h3, h4, h5⟩ := hc
  have hl := labelsToConvert_lookup cfg ev k
  unfold labelsToConvert at h3 hl
  have hd : env.clientDo ⟨"POST", cfg.URL,
      addHeaders env ev (env.headerOrder.order (cfg.Headers.getD GoMap.empty).entries)
        (Header.Set env.canonicalKey GoMap.empty "Content-Type" "application/json"),
      ⟨[⟨streamLabels, [[generateTimestamp env.unixNow, eventBody]]⟩]⟩, reqBody⟩ = .ok resp :=
    hresp
  have hfinal : (Send env cfg ev).cfg.StreamLabels = some (deleteEventLabels
      (addNamespaceLabels ((relabel cfg ev).StreamLabels.getD GoMap.empty) ev)) := by
    unfold Send
    simp only [h1, relabel_IgnoreNamespaces, h2, h3, h4, relabel_URL, h5, relabel_Headers, hd]
    cases hb : resp.Body with
    | error err => simp
    | ok body =>
      by_cases hs : resp.StatusCode ≥ 200 ∧ resp.StatusCode < 300
      · simp [hs]
      · simp [hs]
  rw [hfinal]
  simp only [Option.getD_some, deleteEventLabels, GoMap.lookup_delete, hl]
  by_cases hn : k = "namespace"
  · simp [hn]
  · by_cases hi : k = "index"
    · simp [hi]
    · by_cases hh : k = "host"
      · simp [hh]
      · simp [hn, hi, hh]

/-- C8, evaluated where the code departs from it: after a `Send` of a node
event that met an unreachable backend, the `Send` of a pod event of another
namespace delivers the `host` label of the node, which a fresh sink with the
same configuration does not deliver. -/
theorem Send_second_call_delivers_first_host :
    nodeEvent.InvolvedObject.Namespace ≠ testEvent.InvolvedObject.Namespace ∧
    (Send (sampleEnv (backend 200 ""))
        (Send (sampleEnv unreachable) testConfig nodeEvent).cfg testEvent).requests.map
      (fun req => req.payload.Streams.map (fun st => st.Stream.lookup "host"))
      = [[some "node-1"]] ∧
    (Send (sampleEnv (backend 200 "")) testConfig testEvent).requests.map
      (fun req => req.payload.Streams.map (fun st => st.Stream.lookup "host"))
      = [[none]] := by
  decide

/-! ## The timestamp -/

theorem digitChar_isDigit (m : Nat) (h : m < 10) : (Nat.digitChar m).isDigit = true := by
  interval_cases m <;> decide

theorem toDigitsCore_isDigit (fuel n : Nat) (ds : List Char)
    (h : ∀ c ∈ ds, c.isDigit = true) :
    ∀ c ∈ Nat.toDigitsCore 10 fuel n ds, c.isDigit = true := by
  induction fuel generalizing n ds with
  | zero => simpa [Nat.toDigitsCore] using h
  | succ f ih =>
    have hd : ∀ c ∈ Nat.digitChar (n % 10) :: ds, c.isDigit = true := by
      intro c hc
      rcases List.mem_cons.1 hc with rfl | hc
      · exact digitChar_isDigit _ (Nat.mod_lt _ (by decide))
      · exact h c hc
    unfold Nat.toDigitsCore
    simp only []
    split
    · exact hd
    · exact ih _ _ hd

theorem toDigitsCore_ne_nil (fuel n : Nat) (ds : List Char) (h : ds ≠ []) :
    Nat.toDigitsCore 10 fuel n ds ≠ [] := by
  induction fuel generalizing n ds with
  | zero => simpa [Nat.toDigitsCore] using h
  | succ f ih =>
    unfold Nat.toDigitsCore
    simp only []
    split
    · simp
    · exact ih _ _ (by simp)

theorem toDigits_ne_nil (n : Nat) : Nat.toDigits 10 n ≠ [] := by
  unfold Nat.toDigits Nat.toDigitsCore
  simp only []
  split
  · simp
  · exact toDigitsCore_ne_nil _ _ _ (by simp)

theorem digitChar_toNat (m : Nat) (h : m < 10) : (Nat.digitChar m).toNat - 48 = m := by
  interval_cases m <;> decide

theorem foldl_decimal (cs : List Char) (a : Nat) :
    cs.foldl (fun acc c => 10 * acc + (c.toNat - 48)) a =
      a * 10 ^ cs.length + decimalValue cs := by
  induction cs generalizing a with
  | nil => simp [decimalValue]
  | cons c rest ih =>
    unfold decimalValue
    rw [List.foldl_cons, List.foldl_cons, ih, ih (10 * 0 + (c.toNat - 48)), List.length_cons]
    ring

theorem decimalValue_cons (c : Char) (cs : List Char) :
    decimalValue (c :: cs) = (c.toNat - 48) * 10 ^ cs.length + decimalValue cs := by
  unfold decimalValue
  rw [List.foldl_cons, foldl_decimal]
  simp [decimalValue]

theorem toDigitsCore_value (fuel n : Nat) (ds : List Char) (h : n < fuel) :
    decimalValue (Nat.toDigitsCore 10 fuel n ds) = n * 10 ^ ds.length + decimalValue ds := by
  induction fuel generalizing n ds with
  | zero => omega
  | succ f ih =>
    unfold Nat.toDigitsCore
    simp only []
    have hd := digitChar_toNat (n % 10) (Nat.mod_lt _ (by decide))
    have hn := Nat.div_add_mod n 10
    split
    · rename_i h0
      rw [decimalValue_cons, hd]
      have : n % 10 = n := by omega
      rw [this]
    · rename_i h0
      have hlt : n / 10 < f := by omega
      rw [ih _ _ hlt, decimalValue_cons, hd, List.length_cons, pow_succ]
      nth_rewrite 3 [← hn]
      ring

/-- The digits `FormatInt10` writes for a natural number denote that number. -/
theorem FormatInt10_value (n : Nat) : decimalValue (FormatInt10 (n : Int)).data = n := by
  show decimalValue (Nat.toDigitsCore 10 (n + 1) n []) = n
  rw [toDigitsCore_value _ _ _ (Nat.lt_succ_self n)]
  simp [decimalValue]

theorem generateTimestamp_data (s : Int) :
    (generateTimestamp s).data = (FormatInt10 s).data ++ List.replicate 9 '0' := by
  unfold generateTimestamp
  rw [String.data_append]
  rfl

/-- A text made of `ds` and nine zeros has the timestamp pattern exactly when
`ds` is a non-empty run of digits. -/
theorem matchesTimestampPattern_iff (ds : List Char) (t : String)
    (h : t.data = ds ++ List.replicate 9 '0') :
    matchesTimestampPattern t = true ↔ ds ≠ [] ∧ ∀ c ∈ ds, c.isDigit = true := by
  unfold matchesTimestampPattern
  simp only [h]
  have hlen : (ds ++ List.replicate 9 '0').length - 9 = ds.length := by simp
  rw [hlen, List.take_left, List.drop_left]
  simp [List.isEmpty_iff]

theorem digitChar_ne_zero (m : Nat) (h0 : 0 < m) (h : m < 10) : Nat.digitChar m ≠ '0' := by
  interval_cases m <;> decide

/-- The first digit written for a positive number is not a zero. -/
theorem toDigitsCore_head (fuel n : Nat) (ds : List Char) (h0 : 0 < n) (h : n < fuel) :
    (Nat.toDigitsCore 10 fuel n ds).head? ≠ some '0' := by
  induction fuel generalizing n ds with
  | zero => omega
  | succ f ih =>
    unfold Nat.toDigitsCore
    simp only []
    have hn := Nat.div_add_mod n 10
    split
    · rename_i hq
      have hm : n % 10 = n := by omega
      rw [List.head?_cons, hm]
      intro hc
      exact digitChar_ne_zero n h0 (by omega) (Option.some.inj hc)
    · rename_i hq
      exact ih _ _ (by omega) (by omega)

/-- The digits `FormatInt10` writes for a natural number are decimal digits,
at least one, without a leading zero unless the number is zero. -/
theorem FormatInt10_digits (n : Nat) :
    (FormatInt10 (n : Int)).data ≠ [] ∧
    (∀ c ∈ (FormatInt10 (n : Int)).data, c.isDigit = true) ∧
    ((FormatInt10 (n : Int)).data = ['0'] ∨ (FormatInt10 (n : Int)).data.head? ≠ some '0') := by
  refine ⟨toDigits_ne_nil n, toDigitsCore_isDigit _ _ _ (by simp), ?_⟩
  rcases Nat.eq_zero_or_pos n with h0 | hpos
  · subst h0
    exact Or.inl (by decide)
  · exact Or.inr (toDigitsCore_head _ _ _ hpos (Nat.lt_succ_self n))

/-- C9: with the wall clock reading Unix seconds `s` (a clock at or after the
epoch), the timestamp is the decimal rendering of `s`, that is a non-empty run
of decimal digits that denotes `s` and has no leading zero unless it is the
single digit `0`, followed by exactly nine `0` characters and nothing else; so
it matches `^\d+000000000$`. -/
theorem generateTimestamp_format (s : Int) (hs : 0 ≤ s) :
    ∃ ds : List Char,
      (generateTimestamp s).data = ds ++ List.replicate 9 '0' ∧
      ds ≠ [] ∧
      (∀ c ∈ ds, c.isDigit = true) ∧
      (decimalValue ds : Int) = s ∧
      (ds = ['0'] ∨ ds.head? ≠ some '0') ∧
      matchesTimestampPattern (generateTimestamp s) = true := by
  obtain ⟨n, rfl⟩ := Int.eq_ofNat_of_zero_le hs
  obtain ⟨hne, hdig, hlead⟩ := FormatInt10_digits n
  refine ⟨(FormatInt10 (n : Int)).data, generateTimestamp_data _, hne, hdig, ?_, hlead, ?_⟩
  · rw [FormatInt10_value]
  · exact (matchesTimestampPattern_iff _ _ (generateTimestamp_data _)).2 ⟨hne, hdig⟩

/-- C9 at the reading 1700000000. -/
theorem generateTimestamp_format_witness :
    ∃ ds : List Char,
      (generateTimestamp 1700000000).data = ds ++ List.replicate 9 '0' ∧
      ds ≠ [] ∧
      (∀ c ∈ ds, c.isDigit = true) ∧
      (decimalValue ds : Int) = 1700000000 ∧
      (ds = ['0'] ∨ ds.head? ≠ some '0') ∧
      matchesTimestampPattern (generateTimestamp 1700000000) = true :=
  generateTimestamp_format 1700000000 (by decide)

/-! ## The request headers -/

theorem Values_Add (canon : String → String) (h : Header) (k v K : String) :
    Header.Values canon (Header.Add canon h k v) K =
      Header.Values canon h K ++ (if canon K = canon k then [v] else []) := by
  unfold Header.Values Header.Add
  rw [GoMap.lookup_set]
  by_cases hk : canon K = canon k
  · simp [hk]
  · simp [hk]

theorem addHeaders_step (env : Env) (ev : EnhancedEvent) (k v : String)
    (rest : List (String × String)) (h : Header) :
    addHeaders env ev ((k, v) :: rest) h =
      addHeaders env ev rest (Header.Add env.canonicalKey h k (headerValue env ev v)) := by
  unfold headerValue
  cases hg : env.GetString ev v <;> simp [addHeaders, hg]

/-- The header loop only appends values. -/
theorem addHeaders_Values_append (env : Env) (ev : EnhancedEvent) (l : List (String × String))
    (h : Header) (K : String) :
    ∃ extra, Header.Values env.canonicalKey (addHeaders env ev l h) K =
      Header.Values env.canonicalKey h K ++ extra := by
  induction l generalizing h with
  | nil => exact ⟨[], by simp [addHeaders]⟩
  | cons p rest ih =>
    obtain ⟨k, v⟩ := p
    obtain ⟨extra, he⟩ := ih (Header.Add env.canonicalKey h k (headerValue env ev v))
    rw [addHeaders_step, he, Values_Add, List.append_assoc]
    exact ⟨_, rfl⟩

/-- The header loop adds the value of every entry it visits under its key. -/
theorem addHeaders_mem (env : Env) (ev : EnhancedEvent) (l : List (String × String))
    (h : Header) (k v : String) (hm : (k, v) ∈ l) :
    headerValue env ev v ∈ Header.Values env.canonicalKey (addHeaders env ev l h) k := by
  induction l generalizing h with
  | nil => simp at hm
  | cons p rest ih =>
    obtain ⟨k0, v0⟩ := p
    rw [addHeaders_step]
    rcases List.mem_cons.1 hm with heq | hrest
    · cases heq
      obtain ⟨extra, he⟩ := addHeaders_Values_append env ev rest
        (Header.Add env.canonicalKey h k (headerValue env ev v)) k
      rw [he, Values_Add]
      simp
    · exact ih _ hrest

/-- C10: when `Send` has constructed its request, the request is handed to the
HTTP client with `Content-Type` reading `application/json` and, for every
configured header `(k, v)`, with the rendering of `v` among the values under
`k` when `v` renders and `v` itself when it does not; the error `Send` returns
is the outcome of the HTTP exchange alone. -/
theorem Send_request_headers (env : Env) (cfg : LokiConfig) (ev : EnhancedEvent)
    (eventBody : String) (streamLabels : GoMap String) (reqBody : String)
    (h : RequestConstructed env cfg ev eventBody streamLabels reqBody) :
    ∃ req, (Send env cfg ev).requests = [req] ∧
      (Send env cfg ev).err = exchangeOutcome (env.clientDo req) ∧
      Header.Get env.canonicalKey req.header "Content-Type" = "application/json" ∧
      ∀ k v, (cfg.Headers.getD GoMap.empty).lookup k = some v →
        (∀ r, env.GetString ev v = .ok r → r ∈ Header.Values env.canonicalKey req.header k) ∧
        (∀ e, env.GetString ev v = .error e →
          v ∈ Header.Values env.canonicalKey req.header k) := by
  obtain ⟨hreq, herr⟩ := Send_of_constructed env cfg ev _ _ _ h
  refine ⟨_, hreq, herr, ?_, fun k v hk => ?_⟩
  · obtain ⟨extra, he⟩ := addHeaders_Values_append env ev
      (env.headerOrder.order (cfg.Headers.getD GoMap.empty).entries)
      (Header.Set env.canonicalKey GoMap.empty "Content-Type" "application/json") "Content-Type"
    show Header.Get env.canonicalKey (requestHeader env cfg ev) "Content-Type" = _
    unfold Header.Get requestHeader
    rw [he]
    simp [Header.Values, Header.Set, GoMap.lookup_set]
  · have hm : (k, v) ∈ env.headerOrder.order (cfg.Headers.getD GoMap.empty).entries :=
      (mem_order _ _ _).2 ((GoMap.lookup_eq_some_iff _ k v).1 hk)
    have hv := addHeaders_mem env ev _
      (Header.Set env.canonicalKey GoMap.empty "Content-Type" "application/json") k v hm
    refine ⟨fun r hr => ?_, fun e he => ?_⟩
    · simpa [headerValue, hr] using hv
    · simpa [headerValue, he] using hv

/-- C10 at a configuration with a header that renders and one that does not. -/
theorem Send_request_headers_witness :
    ∃ req, (Send (sampleEnv (backend 200 "")) headerConfig testEvent).requests = [req] ∧
      (Send (sampleEnv (backend 200 "")) headerConfig testEvent).err
        = exchangeOutcome ((sampleEnv (backend 200 "")).clientDo req) ∧
      Header.Get (sampleEnv (backend 200 "")).canonicalKey req.header "Content-Type"
        = "application/json" ∧
      ∀ k v, (headerConfig.Headers.getD GoMap.empty).lookup k = some v →
        (∀ r, (sampleEnv (backend 200 "")).GetString testEvent v = .ok r →
          r ∈ Header.Values (sampleEnv (backend 200 "")).canonicalKey req.header k) ∧
        (∀ e, (sampleEnv (backend 200 "")).GetString testEvent v = .error e →
          v ∈ Header.Values (sampleEnv (backend 200 "")).canonicalKey req.header k) :=
  Send_request_headers (sampleEnv (backend 200 "")) headerConfig testEvent "\x7b\x7d" _ "payload"
    ⟨rfl, rfl, rfl, rfl, rfl⟩

end Loki
